import Mathlib

/-
Verification of the loyalty-lens ETL core (src/transform.py) against its
specification.  The pipeline's transform stage is shallowly embedded:
tables are lists of records, monetary amounts are rationals, dates are
integer day numbers, and the two failure modes of the source (the pandas
astype-int-of-infinity error in the loyalty loop and the qcut ValueError
on duplicate bin edges) are modelled with Except and Option.
-/

namespace LoyaltyLens

/-- A row of the products table after schema renames
(current_stock_level renamed to current_stock). -/
structure Product where
  product_id : String
  unit_price : Option ℚ
  current_stock : ℚ
deriving DecidableEq, Repr

/-- A row of the sales_header table; transaction_date is a day number. -/
structure SalesHeader where
  transaction_id : String
  customer_id : String
  transaction_date : ℤ
  total_amount : ℚ
deriving DecidableEq, Repr

/-- A row of the sales_line_items table. -/
structure SalesLineItem where
  line_item_id : String
  transaction_id : String
  product_id : String
  quantity : ℚ
deriving DecidableEq, Repr

/-- A Python scalar as it may appear in the is_active column: the CSV
loader can surface it as a string or as a parsed boolean. -/
inductive PyVal where
  | str (s : String)
  | bool (b : Bool)
deriving DecidableEq, Repr

/-- A row of the loyalty_rules table. -/
structure LoyaltyRule where
  min_spend_threshold : ℚ
  points_per_unit_spend : ℚ
  bonus_points : ℚ
  is_active : PyVal
deriving DecidableEq, Repr

/-- A row of the rfm_rules segment-boundary table. -/
structure RfmRule where
  segment_name : String
  rfm_score_min : ℤ
  rfm_score_max : ℤ
deriving DecidableEq, Repr

/-- A row of the customers table (only the fields the core mutates or
keys on). -/
structure Customer where
  customer_id : String
  total_loyalty_points : ℚ
deriving DecidableEq, Repr

/- ========= DATA CLEANING (transform.py lines 49-69) ========= -/

/-- products.loc[products.unit_price < 0] := NaN;
products.loc[products.current_stock < 0] := 0.  Row is kept. -/
def cleanProduct (p : Product) : Product :=
  { p with
    unit_price :=
      match p.unit_price with
      | some v => if v < 0 then none else some v
      | none => none
    current_stock := if p.current_stock < 0 then 0 else p.current_stock }

/-- The two product fix-ups applied to the whole table. -/
def cleanProducts (ps : List Product) : List Product := ps.map cleanProduct

/-- sales_header = sales_header[sales_header.total_amount >= 0]. -/
def cleanSalesHeader (hs : List SalesHeader) : List SalesHeader :=
  hs.filter (fun h => decide (0 ≤ h.total_amount))

/-- The three successive line-item filters of transform.py, in source
order: quantity > 0, then product_id referential filter, then the orphan
filter against the (already cleaned) sales_header table. -/
def cleanSalesLineItems (products : List Product) (headers : List SalesHeader)
    (items : List SalesLineItem) : List SalesLineItem :=
  ((items.filter (fun l => decide (0 < l.quantity))).filter
      (fun l => products.any (fun p => p.product_id == l.product_id))).filter
    (fun l => headers.any (fun h => h.transaction_id == l.transaction_id))

/- ========= DYNAMIC LOYALTY ENGINE (transform.py lines 74-93) ========= -/

/-- The boolean test loyalty_rules.is_active == "TRUE" as Python
evaluates it: only the exact string compares equal; a boolean never
equals a string. -/
def is_active_true : PyVal → Bool
  | .str s => s == "TRUE"
  | .bool _ => false

/-- Series.astype(int) on a finite float: truncation toward zero. -/
def astypeInt (q : ℚ) : ℤ := if 0 ≤ q then ⌊q⌋ else ⌈q⌉

/-- A sales_header row with its accumulating earned_points column. -/
structure ScoredHeader where
  hdr : SalesHeader
  earned_points : ℚ
deriving DecidableEq, Repr

/-- The pandas error raised when astype(int) meets the infinity (or NaN)
produced by dividing by a zero threshold. -/
def nonFiniteCastMsg : String := "Cannot convert non-finite values (NA or inf) to integer"

/-- One iteration of the rule loop.  When the threshold is zero and the
condition selects at least one row, total_amount / 0 is infinite (or NaN)
and astype(int) raises; otherwise each selected row gains
astypeInt(total_amount / threshold) * points_per_unit_spend + bonus_points. -/
def applyLoyaltyRule (st : List ScoredHeader) (r : LoyaltyRule) :
    Except String (List ScoredHeader) :=
  if r.min_spend_threshold = 0 ∧
      st.any (fun s => decide (r.min_spend_threshold ≤ s.hdr.total_amount)) then
    Except.error nonFiniteCastMsg
  else
    Except.ok (st.map (fun s =>
      if r.min_spend_threshold ≤ s.hdr.total_amount then
        { s with
          earned_points := s.earned_points +
            ((astypeInt (s.hdr.total_amount / r.min_spend_threshold) : ℚ) *
                r.points_per_unit_spend + r.bonus_points) }
      else s))

/-- The rule loop: rules applied sequentially in table order, aborting
with the pandas exception when one raises. -/
def applyRules (st : List ScoredHeader) : List LoyaltyRule → Except String (List ScoredHeader)
  | [] => Except.ok st
  | r :: rs =>
    match applyLoyaltyRule st r with
    | Except.ok st2 => applyRules st2 rs
    | Except.error e => Except.error e

/-- The loyalty engine: earned_points initialized to 0, then each rule
of loyalty_rules[loyalty_rules.is_active == "TRUE"] applied in order. -/
def loyaltyEngine (rules : List LoyaltyRule) (hs : List SalesHeader) :
    Except String (List ScoredHeader) :=
  applyRules (hs.map (fun h => { hdr := h, earned_points := 0 })) (rules.filter (fun r => is_active_true r.is_active))

/- ========= POINTS AGGREGATION (transform.py lines 89-93) ========= -/

/-- Insertion step of an ascending sort on strings (pandas groupby sorts
its keys). -/
def sortStrInsert (x : String) : List String → List String
  | [] => [x]
  | y :: ys => if y < x then y :: sortStrInsert x ys else x :: y :: ys

/-- Ascending insertion sort on strings. -/
def sortStrings (xs : List String) : List String := xs.foldr sortStrInsert []

/-- Removal of duplicates from a sorted list (duplicates of a sorted
list are adjacent, so which occurrence survives does not matter). -/
def dedupStr : List String → List String
  | [] => []
  | x :: xs => if xs.contains x then dedupStr xs else x :: dedupStr xs

/-- The distinct keys of a groupby, in ascending order. -/
def groupKeys (xs : List String) : List String := dedupStr (sortStrings xs)

/-- sales_header.groupby("customer_id").earned_points.sum(): one row per
customer appearing in sales_header, carrying the sum of that customer's
earned_points. -/
def pointsByCustomer (st : List ScoredHeader) : List (String × ℚ) :=
  (groupKeys (st.map (fun s => s.hdr.customer_id))).map (fun c =>
    (c, ((st.filter (fun s => s.hdr.customer_id == c)).map
          (fun s => s.earned_points)).sum))

/-- customers.merge(points, how="left") followed by fillna(0): every
customer keeps their row; a customer absent from the grouped points gets
0 in place of the null produced by the left merge. -/
def mergedPoints (customers : List Customer) (st : List ScoredHeader) :
    List (String × ℚ) :=
  customers.map (fun c =>
    (c.customer_id,
      match (pointsByCustomer st).find? (fun p => p.1 == c.customer_id) with
      | some p => p.2
      | none => 0))

/- ========= RFM ANALYTICS (transform.py lines 96-110) ========= -/

/-- Insertion step of an ascending sort on rationals. -/
def sortRatInsert (x : ℚ) : List ℚ → List ℚ
  | [] => [x]
  | y :: ys => if y < x then y :: sortRatInsert x ys else x :: y :: ys

/-- Ascending insertion sort on rationals, as numpy sorts a series
before taking quantiles. -/
def sortRats (xs : List ℚ) : List ℚ := xs.foldr sortRatInsert []

/-- Linear-interpolation quantile of an already sorted list, the numpy
default used by pd.qcut: position p * (n - 1) interpolated between its
neighbouring elements. -/
def interpQuantile (s : List ℚ) (p : ℚ) : ℚ :=
  let n := s.length
  let pos : ℚ := p * ((n : ℚ) - 1)
  let i : ℕ := (⌊pos⌋).toNat
  let lo := s.getD i 0
  let hi := s.getD (min (i + 1) (n - 1)) 0
  lo + (pos - (i : ℚ)) * (hi - lo)

/-- pd.qcut(xs, 3): bin edges are the quantiles at 0, 1/3, 2/3 and 1.
When two edges coincide qcut raises ValueError (modelled as none);
otherwise only the two interior edges matter for binning. -/
def tertileEdges (xs : List ℚ) : Option (ℚ × ℚ) :=
  let s := sortRats xs
  let e0 := interpQuantile s 0
  let e1 := interpQuantile s (1 / 3)
  let e2 := interpQuantile s (2 / 3)
  let e3 := interpQuantile s 1
  if e0 = e1 ∨ e1 = e2 ∨ e2 = e3 then none else some (e1, e2)

/-- Which of the three right-closed qcut bins a value lands in, reported
as the label attached to that bin (the first bin's lower edge is
stretched to include the minimum). -/
def qcutLabel (l1 l2 l3 : ℤ) (edges : ℚ × ℚ) (x : ℚ) : ℤ :=
  if x ≤ edges.1 then l1 else if x ≤ edges.2 then l2 else l3

/-- The transactions of one customer, in table order. -/
def custTxns (hs : List SalesHeader) (c : String) : List SalesHeader :=
  hs.filter (fun h => h.customer_id == c)

/-- Maximum of a list of integers (0 for the empty list, which the
pipeline never consults: every grouped customer has a transaction). -/
def listMaxInt : List ℤ → ℤ
  | [] => 0
  | x :: xs => xs.foldl max x

/-- snapshot_date = sales_header.transaction_date.max() + 1 day. -/
def snapshotDate (hs : List SalesHeader) : ℤ :=
  listMaxInt (hs.map (fun h => h.transaction_date)) + 1

/-- recency = (snapshot_date - customer's latest transaction_date).days. -/
def recencyOf (hs : List SalesHeader) (c : String) : ℤ :=
  snapshotDate hs - listMaxInt ((custTxns hs c).map (fun h => h.transaction_date))

/-- frequency = count of the customer's transactions. -/
def frequencyOf (hs : List SalesHeader) (c : String) : ℕ :=
  (custTxns hs c).length

/-- monetary = sum of the customer's total_amount values. -/
def monetaryOf (hs : List SalesHeader) (c : String) : ℚ :=
  ((custTxns hs c).map (fun h => h.total_amount)).sum

/-- The customers of the rfm frame: groupby("customer_id") keys, i.e.
the distinct customer ids of sales_header in ascending order. -/
def rfmCustomers (hs : List SalesHeader) : List String :=
  groupKeys (hs.map (fun h => h.customer_id))

/-- recency as the float series handed to qcut. -/
def recencyQ (hs : List SalesHeader) (c : String) : ℚ := ((recencyOf hs c : ℤ) : ℚ)

/-- frequency as the float series handed to rank / qcut. -/
def frequencyQ (hs : List SalesHeader) (c : String) : ℚ := ((frequencyOf hs c : ℕ) : ℚ)

/-- Series.rank(method="first") of the value f c within the series
indexed by cids: one plus the number of strictly smaller values plus the
number of equal values at earlier positions. -/
def rankFirst (cids : List String) (f : String → ℚ) (c : String) : ℚ :=
  ((cids.filter (fun d => decide (f d < f c))).length : ℚ) +
    (((cids.takeWhile (fun d => !(d == c))).filter
        (fun d => decide (f d = f c))).length : ℚ) + 1

/-- The rank series rfm.frequency.rank(method="first") evaluated at one
customer. -/
def freqRank (hs : List SalesHeader) (c : String) : ℚ :=
  rankFirst (rfmCustomers hs) (frequencyQ hs) c

/-- Bin edges for the recency series, labels [3,2,1]. -/
def rEdges (hs : List SalesHeader) : Option (ℚ × ℚ) :=
  tertileEdges ((rfmCustomers hs).map (recencyQ hs))

/-- Bin edges for the ranked frequency series, labels [1,2,3]. -/
def fEdges (hs : List SalesHeader) : Option (ℚ × ℚ) :=
  tertileEdges ((rfmCustomers hs).map (freqRank hs))

/-- Bin edges for the monetary series, labels [1,2,3]. -/
def mEdges (hs : List SalesHeader) : Option (ℚ × ℚ) :=
  tertileEdges ((rfmCustomers hs).map (monetaryOf hs))

/- ========= DYNAMIC SEGMENTATION (transform.py lines 113-124) ========= -/

/-- The row filter rfm_score_min <= score <= rfm_score_max. -/
def rfmMatches (score : ℤ) (r : RfmRule) : Bool :=
  decide (r.rfm_score_min ≤ score) && decide (r.rfm_score_max ≥ score)

/-- segment_customer: filter the rfm_rules table by the inclusive range
test and take .values[0] of the surviving segment_name column, i.e. the
first matching rule in table order; "Unclassified" when none matches. -/
def segment_customer (rfm_rules : List RfmRule) (score : ℤ) : String :=
  match rfm_rules.find? (rfmMatches score) with
  | some r => r.segment_name
  | none => "Unclassified"

/-- One row of the rfm frame after scoring and segmentation. -/
structure RfmRow where
  customer_id : String
  recency : ℤ
  frequency : ℕ
  monetary : ℚ
  scoreR : ℤ
  scoreF : ℤ
  scoreM : ℤ
  rfm_score : ℤ
  segment : String
deriving DecidableEq, Repr

/-- The fully scored rfm row of one customer, given the three pairs of
interior bin edges. -/
def rfmRow (rfm_rules : List RfmRule) (hs : List SalesHeader)
    (eR eF eM : ℚ × ℚ) (c : String) : RfmRow :=
  let r := qcutLabel 3 2 1 eR (recencyQ hs c)
  let f := qcutLabel 1 2 3 eF (freqRank hs c)
  let m := qcutLabel 1 2 3 eM (monetaryOf hs c)
  { customer_id := c
    recency := recencyOf hs c
    frequency := frequencyOf hs c
    monetary := monetaryOf hs c
    scoreR := r
    scoreF := f
    scoreM := m
    rfm_score := r + f + m
    segment := segment_customer rfm_rules (r + f + m) }

/-- The rfm frame: one row per customer with a transaction, none when
any of the three qcut calls raises ValueError on duplicate edges. -/
def rfmTable (rfm_rules : List RfmRule) (hs : List SalesHeader) :
    Option (List RfmRow) :=
  (rEdges hs).bind fun eR =>
    (fEdges hs).bind fun eF =>
      (mEdges hs).bind fun eM =>
        some ((rfmCustomers hs).map (rfmRow rfm_rules hs eR eF eM))

/-- A row of customers.merge(rfm, how="left"): the rfm columns are null
for a customer with no rfm row. -/
structure CustomerSegmentRow where
  customer_id : String
  segment : Option String
deriving DecidableEq, Repr

/-- customer_loyalty_segments = customers.merge(rfm, on="customer_id",
how="left"), projected to the segment column. -/
def customerLoyaltySegments (rfm_rules : List RfmRule)
    (customers : List Customer) (hs : List SalesHeader) :
    Option (List CustomerSegmentRow) :=
  (rfmTable rfm_rules hs).map (fun rfm =>
    customers.map (fun c =>
      { customer_id := c.customer_id
        segment := (rfm.find? (fun row => row.customer_id == c.customer_id)).map
          (fun row => row.segment) }))

/- ========= SPECIFICATION-SIDE DEFINITIONS ========= -/

/-- Modelled from the spec (section 4.3): the contribution of one rule
to one transaction, written with a mathematical floor as the spec words
it; to be compared with the engine's astypeInt accumulation. -/
def specRuleContribution (amount : ℚ) (r : LoyaltyRule) : ℚ :=
  if r.min_spend_threshold ≤ amount then
    ((⌊amount / r.min_spend_threshold⌋ : ℤ) : ℚ) * r.points_per_unit_spend +
      r.bonus_points
  else 0

/-- Modelled from the spec (section 4.3): earned_points of a transaction
as the sum over all active rules of specRuleContribution. -/
def specEarnedPoints (rules : List LoyaltyRule) (amount : ℚ) : ℚ :=
  ((rules.filter (fun r => is_active_true r.is_active)).map
      (specRuleContribution amount)).sum

/-- The amount one loop iteration adds to a selected row, written with
the engine's astypeInt; 0 for an unselected row. -/
def ruleContribution (amount : ℚ) (r : LoyaltyRule) : ℚ :=
  if r.min_spend_threshold ≤ amount then
    ((astypeInt (amount / r.min_spend_threshold) : ℤ) : ℚ) *
        r.points_per_unit_spend + r.bonus_points
  else 0

/- ========= HELPER LEMMAS ========= -/

theorem mem_sortStrInsert (x a : String) (l : List String) :
    a ∈ sortStrInsert x l ↔ a = x ∨ a ∈ l := by
  induction l with
  | nil => simp [sortStrInsert]
  | cons y ys ih =>
    unfold sortStrInsert
    by_cases h : y < x
    · rw [if_pos h]
      simp only [List.mem_cons, ih]
      tauto
    · rw [if_neg h]
      simp only [List.mem_cons]

theorem mem_sortStrings (a : String) (l : List String) :
    a ∈ sortStrings l ↔ a ∈ l := by
  induction l with
  | nil => simp [sortStrings]
  | cons y ys ih =>
    show a ∈ sortStrInsert y (sortStrings ys) ↔ _
    rw [mem_sortStrInsert, ih]
    simp

theorem mem_dedupStr (a : String) (l : List String) :
    a ∈ dedupStr l ↔ a ∈ l := by
  induction l with
  | nil => simp [dedupStr]
  | cons x xs ih =>
    unfold dedupStr
    by_cases h : xs.contains x
    · rw [if_pos h, ih]
      simp only [List.mem_cons]
      constructor
      · exact Or.inr
      · rintro (rfl | hmem)
        · exact List.elem_iff.mp h
        · exact hmem
    · rw [if_neg h]
      simp only [List.mem_cons, ih]

theorem mem_groupKeys (a : String) (l : List String) :
    a ∈ groupKeys l ↔ a ∈ l := by
  unfold groupKeys
  rw [mem_dedupStr, mem_sortStrings]

/-- find? over a list built by mapping a key-preserving constructor over
a list of keys returns the image of the key when the key is present. -/
theorem find_map_key_of_mem {α : Type} (f : String → α) (key : α → String)
    (hk : ∀ c, key (f c) = c) (l : List String) (x : String) (hx : x ∈ l) :
    (l.map f).find? (fun a => key a == x) = some (f x) := by
  induction l with
  | nil => cases hx
  | cons y ys ih =>
    by_cases hxy : y = x
    · subst hxy
      simp [List.find?_cons, hk]
    · have hx2 : x ∈ ys := by
        cases hx with
        | head => exact absurd rfl hxy
        | tail _ h => exact h
      have hbeq : (y == x) = false := beq_eq_false_iff_ne.mpr hxy
      simp only [List.map_cons, List.find?_cons, hk, hbeq]
      exact ih hx2

/-- find? over the same shape of list returns none when the key is
absent. -/
theorem find_map_key_of_not_mem {α : Type} (f : String → α) (key : α → String)
    (hk : ∀ c, key (f c) = c) (l : List String) (x : String) (hx : x ∉ l) :
    (l.map f).find? (fun a => key a == x) = none := by
  rw [List.find?_eq_none]
  intro a ha
  rcases List.mem_map.mp ha with ⟨y, hy, hfy⟩
  subst hfy
  simp only [hk, beq_iff_eq]
  intro hyx
  exact hx (hyx ▸ hy)

/-- find? over an append whose first part has no match and whose second
part starts with a match returns that match. -/
theorem find_append_cons_of_none {α : Type} (p : α → Bool) (pre : List α)
    (hpre : ∀ a ∈ pre, p a = false) (r : α) (post : List α) (hr : p r = true) :
    (pre ++ r :: post).find? p = some r := by
  induction pre with
  | nil => simp [List.find?_cons, hr]
  | cons q qs ih =>
    have hq : p q = false := hpre q (by simp)
    simp only [List.cons_append, List.find?_cons, hq]
    exact ih (fun a ha => hpre a (by simp [ha]))

theorem qcutLabel_321_range (e : ℚ × ℚ) (x : ℚ) :
    1 ≤ qcutLabel 3 2 1 e x ∧ qcutLabel 3 2 1 e x ≤ 3 := by
  unfold qcutLabel
  split_ifs <;> norm_num

theorem qcutLabel_123_range (e : ℚ × ℚ) (x : ℚ) :
    1 ≤ qcutLabel 1 2 3 e x ∧ qcutLabel 1 2 3 e x ≤ 3 := by
  unfold qcutLabel
  split_ifs <;> norm_num

/-- The rule loop on rules with nonzero thresholds never raises and adds
to each row the sum of the per-rule contributions. -/
theorem applyRules_ok (rs : List LoyaltyRule)
    (hnz : ∀ r ∈ rs, r.min_spend_threshold ≠ 0) :
    ∀ st : List ScoredHeader,
      applyRules st rs = Except.ok (st.map (fun s =>
        { s with earned_points := s.earned_points +
            ((rs.map (ruleContribution s.hdr.total_amount)).sum) })) := by
  induction rs with
  | nil =>
    intro st
    simp only [applyRules, List.map_nil, List.sum_nil, add_zero]
    congr 1
    conv_lhs => rw [(List.map_id st).symm]
    apply List.map_congr_left
    intro s _
    cases s
    rfl
  | cons r rs ih =>
    intro st
    have hr : r.min_spend_threshold ≠ 0 := hnz r (by simp)
    have happ : applyLoyaltyRule st r = Except.ok (st.map (fun s =>
        if r.min_spend_threshold ≤ s.hdr.total_amount then
          { s with earned_points := s.earned_points +
              ((astypeInt (s.hdr.total_amount / r.min_spend_threshold) : ℤ) : ℚ) *
                  r.points_per_unit_spend + r.bonus_points }
        else s)) := by
      unfold applyLoyaltyRule
      rw [if_neg (fun hc => hr hc.1)]
      congr 1
      apply List.map_congr_left
      intro s _
      split
      · rw [add_assoc]
      · rfl
    simp only [applyRules, happ]
    rw [ih (fun r2 h2 => hnz r2 (by simp [h2]))]
    congr 1
    rw [List.map_map]
    apply List.map_congr_left
    intro s _
    simp only [Function.comp_apply, List.map_cons, List.sum_cons]
    by_cases hc : r.min_spend_threshold ≤ s.hdr.total_amount
    · rw [if_pos hc]
      simp only [ruleContribution, if_pos hc]
      congr 1
      ring
    · rw [if_neg hc]
      simp only [ruleContribution, if_neg hc, zero_add]

/- ========= CLAIM THEOREMS ========= -/

/-- Claim C1: for every transaction, earned_points is the sum over all
active loyalty rules of floor(total_amount / min_spend_threshold) *
points_per_unit_spend + bonus_points when total_amount is at least the
threshold and 0 otherwise, the rules acting additively with no mutual
exclusivity. -/
theorem C1_loyalty_accrual (rules : List LoyaltyRule) (hs : List SalesHeader)
    (hpos : ∀ r ∈ rules, is_active_true r.is_active = true →
      0 < r.min_spend_threshold)
    (hamt : ∀ h ∈ hs, 0 ≤ h.total_amount) :
    loyaltyEngine rules hs = Except.ok (hs.map (fun h =>
      { hdr := h, earned_points := specEarnedPoints rules h.total_amount })) := by
  unfold loyaltyEngine
  rw [applyRules_ok _ (fun r hr =>
    ne_of_gt (hpos r (List.mem_filter.mp hr).1 (List.mem_filter.mp hr).2))]
  congr 1
  rw [List.map_map]
  apply List.map_congr_left
  intro h hmem
  simp only [Function.comp_apply, zero_add]
  unfold specEarnedPoints
  congr 1
  congr 1
  apply List.map_congr_left
  intro r hrf
  have hract := List.mem_filter.mp hrf
  have hrpos := hpos r hract.1 hract.2
  unfold ruleContribution specRuleContribution
  by_cases hcond : r.min_spend_threshold ≤ h.total_amount
  · rw [if_pos hcond, if_pos hcond]
    congr 3
    unfold astypeInt
    rw [if_pos (div_nonneg (hamt h hmem) (le_of_lt hrpos))]
  · rw [if_neg hcond, if_neg hcond]

/-- Witness for C1 at the spec's worked example: rule A
(threshold 100, 5 points per unit, bonus 10) and rule B (threshold 50,
1 point per unit, no bonus), both active, on a transaction of 250, give
2 * 5 + 10 + 5 * 1 + 0 = 25 points. -/
theorem C1_loyalty_accrual_witness :
    loyaltyEngine
        [⟨100, 5, 10, PyVal.str ("TRUE")⟩, ⟨50, 1, 0, PyVal.str ("TRUE")⟩]
        [⟨"T1", "C1", 0, 250⟩] =
      Except.ok [⟨⟨"T1", "C1", 0, 250⟩, 25⟩] := by
  rw [C1_loyalty_accrual _ _ (by decide) (by decide)]
  norm_num [specEarnedPoints, specRuleContribution, is_active_true, List.filter,
    List.map]

/-- Claim C2: segment_customer scans the rfm_rules table in its given
order and returns the segment_name of the first rule whose inclusive
range contains the score, and "Unclassified" when no rule matches. -/
theorem C2_first_match_segmentation :
    (∀ (pre post : List RfmRule) (r : RfmRule) (score : ℤ),
        (∀ r2 ∈ pre, rfmMatches score r2 = false) → rfmMatches score r = true →
          segment_customer (pre ++ r :: post) score = r.segment_name) ∧
    (∀ (rules : List RfmRule) (score : ℤ),
        (∀ r2 ∈ rules, rfmMatches score r2 = false) →
          segment_customer rules score = "Unclassified") := by
  constructor
  · intro pre post r score hpre hr
    unfold segment_customer
    rw [find_append_cons_of_none _ pre hpre r post hr]
  · intro rules score hnone
    unfold segment_customer
    rw [List.find?_eq_none.mpr (fun a ha => by simp [hnone a ha])]

/-- Witness for C2 at the spec's boundary example: with rules
[(6,9,Gold), (7,8,Platinum)] in that order, score 7 is classified Gold
although the Platinum rule also matches. -/
theorem C2_first_match_segmentation_witness :
    segment_customer [⟨"Gold", 6, 9⟩, ⟨"Platinum", 7, 8⟩] 7 = "Gold" ∧
      rfmMatches 7 ⟨"Platinum", 7, 8⟩ = true :=
  ⟨C2_first_match_segmentation.1 [] [⟨"Platinum", 7, 8⟩] ⟨"Gold", 6, 9⟩ 7
      (by intro r2 h2; cases h2) (by decide),
    by decide⟩

/-- Claim C9: cleaning the product table nulls every negative unit_price,
clamps every negative current_stock to 0, keeps non-negative values, and
removes no row. -/
theorem C9_product_cleaning (ps : List Product) :
    (cleanProducts ps).length = ps.length ∧
    ∀ p ∈ ps,
      (∀ v : ℚ, p.unit_price = some v → v < 0 →
        (cleanProduct p).unit_price = none) ∧
      (∀ v : ℚ, p.unit_price = some v → 0 ≤ v →
        (cleanProduct p).unit_price = some v) ∧
      (p.current_stock < 0 → (cleanProduct p).current_stock = 0) ∧
      (0 ≤ p.current_stock → (cleanProduct p).current_stock = p.current_stock) ∧
      (cleanProduct p).product_id = p.product_id := by
  refine ⟨List.length_map ps cleanProduct, fun p _ => ⟨?_, ?_, ?_, ?_, rfl⟩⟩
  · intro v hv hneg
    simp [cleanProduct, hv, hneg]
  · intro v hv hnn
    simp [cleanProduct, hv, not_lt.mpr hnn]
  · intro hst
    simp [cleanProduct, hst]
  · intro hst
    simp [cleanProduct, not_lt.mpr hst]

/-- Witness for C9 at the spec's example product: unit_price -5 becomes
null, current_stock -3 becomes 0, and the single row survives. -/
theorem C9_product_cleaning_witness :
    (cleanProducts [⟨"P1", some (-5 : ℚ), -3⟩]).length = 1 ∧
      (cleanProduct ⟨"P1", some (-5 : ℚ), -3⟩).unit_price = none ∧
      (cleanProduct ⟨"P1", some (-5 : ℚ), -3⟩).current_stock = 0 :=
  ⟨(C9_product_cleaning [⟨"P1", some (-5 : ℚ), -3⟩]).1,
    ((C9_product_cleaning [⟨"P1", some (-5 : ℚ), -3⟩]).2 _ (by decide)).1
      (-5) rfl (by norm_num),
    ((C9_product_cleaning [⟨"P1", some (-5 : ℚ), -3⟩]).2 _ (by decide)).2.2.1
      (by norm_num)⟩

/-- Claim C10: a loyalty rule is treated as active exactly when its
is_active field is the exact string TRUE; a rule carrying any other
value, including a parsed boolean true, contributes nothing, as if
inactive. -/
theorem C10_exact_string_active_flag :
    (∀ v : PyVal, is_active_true v = true ↔ v = PyVal.str ("TRUE")) ∧
    (∀ (rules1 rules2 : List LoyaltyRule) (r : LoyaltyRule)
        (hs : List SalesHeader), is_active_true r.is_active = false →
          loyaltyEngine (rules1 ++ r :: rules2) hs =
            loyaltyEngine (rules1 ++ rules2) hs) := by
  constructor
  · intro v
    cases v with
    | str s => simp [is_active_true]
    | bool b => simp [is_active_true]
  · intro rules1 rules2 r hs hin
    unfold loyaltyEngine
    rw [List.filter_append, List.filter_append,
      List.filter_cons_of_neg (by simp [hin])]

/-- Witness for C10: a rule flagged with the string Yes is skipped (the
engine behaves as with no rule at all), and a parsed boolean true is not
the string TRUE. -/
theorem C10_exact_string_active_flag_witness :
    is_active_true (PyVal.bool true) = false ∧
      loyaltyEngine [⟨100, 5, 10, PyVal.str ("Yes")⟩] [⟨"T1", "C1", 0, 250⟩] =
        loyaltyEngine [] [⟨"T1", "C1", 0, 250⟩] :=
  ⟨by decide,
    C10_exact_string_active_flag.2 [] [] ⟨100, 5, 10, PyVal.str ("Yes")⟩
      [⟨"T1", "C1", 0, 250⟩] (by decide)⟩

/-- Claim C7: the orphan filter on line items runs against the already
amount-filtered header table, so every surviving line item references a
surviving header, and a line item whose transaction_id is absent from
the headers or whose only headers were dropped for a negative
total_amount is excluded. -/
theorem C7_orphan_filter_after_amount_filter (products : List Product)
    (raw_headers : List SalesHeader) (items : List SalesLineItem) (t : String)
    (hdrop : ∀ h ∈ raw_headers, h.transaction_id = t → h.total_amount < 0) :
    (∀ l ∈ cleanSalesLineItems products (cleanSalesHeader raw_headers) items,
        ∃ h ∈ cleanSalesHeader raw_headers,
          h.transaction_id = l.transaction_id) ∧
    (∀ l ∈ cleanSalesLineItems products (cleanSalesHeader raw_headers) items,
        l.transaction_id ≠ t) := by
  have hmem : ∀ l ∈ cleanSalesLineItems products (cleanSalesHeader raw_headers)
      items, ∃ h ∈ cleanSalesHeader raw_headers,
        h.transaction_id = l.transaction_id := by
    intro l hl
    unfold cleanSalesLineItems at hl
    have hany := (List.mem_filter.mp hl).2
    rcases List.any_eq_true.mp hany with ⟨h, hh, heq⟩
    exact ⟨h, hh, beq_iff_eq.mp heq⟩
  refine ⟨hmem, fun l hl heq => ?_⟩
  rcases hmem l hl with ⟨h, hhmem, hid⟩
  unfold cleanSalesHeader at hhmem
  have hraw := List.mem_filter.mp hhmem
  have hneg := hdrop h hraw.1 (by rw [hid, heq])
  have hpos : (0 : ℚ) ≤ h.total_amount := of_decide_eq_true hraw.2
  linarith

/-- Witness for C7 at the spec's example: a header with total_amount
-10 is dropped, and the line item referencing it (as well as one
referencing the absent id T999) is excluded from the cleaned line
items. -/
theorem C7_orphan_filter_witness :
    (∀ h ∈ [(⟨"T1", "C9", 5, -10⟩ : SalesHeader)],
        h.transaction_id = "T1" → h.total_amount < 0) ∧
    ∀ l ∈ cleanSalesLineItems [⟨"P1", some (5 : ℚ), 3⟩]
        (cleanSalesHeader [⟨"T1", "C9", 5, -10⟩])
        [⟨"L1", "T1", "P1", 1⟩, ⟨"L2", "T999", "P1", 1⟩],
      l.transaction_id ≠ "T1" :=
  ⟨by decide,
    (C7_orphan_filter_after_amount_filter [⟨"P1", some (5 : ℚ), 3⟩]
        [⟨"T1", "C9", 5, -10⟩] [⟨"L1", "T1", "P1", 1⟩, ⟨"L2", "T999", "P1", 1⟩]
        "T1" (by decide)).2⟩

/-- Claim C8: the merged per-customer points column is a full recompute:
for every customer row it equals the sum of earned_points over exactly
that customer's transactions in the snapshot (so a customer with no
transactions gets the empty sum 0, not null, and no previous total is
consulted). -/
theorem C8_points_full_recompute (customers : List Customer)
    (st : List ScoredHeader) :
    mergedPoints customers st = customers.map (fun c =>
      (c.customer_id,
        ((st.filter (fun s => s.hdr.customer_id == c.customer_id)).map
            (fun s => s.earned_points)).sum)) := by
  unfold mergedPoints
  apply List.map_congr_left
  intro c _
  unfold pointsByCustomer
  by_cases hmem : c.customer_id ∈ st.map (fun s => s.hdr.customer_id)
  · rw [find_map_key_of_mem
      (fun cid => (cid, ((st.filter (fun s => s.hdr.customer_id == cid)).map
        (fun s => s.earned_points)).sum))
      Prod.fst (fun cid => rfl) _ _ ((mem_groupKeys _ _).mpr hmem)]
  · rw [find_map_key_of_not_mem
      (fun cid => (cid, ((st.filter (fun s => s.hdr.customer_id == cid)).map
        (fun s => s.earned_points)).sum))
      Prod.fst (fun cid => rfl) _ _
      (fun hk => hmem ((mem_groupKeys _ _).mp hk))]
    have hnil : st.filter (fun s => s.hdr.customer_id == c.customer_id) = [] := by
      rw [List.filter_eq_nil_iff]
      intro s hs hbeq
      exact hmem (List.mem_map.mpr ⟨s, hs, beq_iff_eq.mp hbeq⟩)
    rw [hnil]
    simp

/-- Claim C3: whenever the RFM stage produces its frame, every customer
with at least one transaction in the snapshot has a row there, and that
row's RFM score is an integer between 3 and 9 inclusive (a sum of three
tertile labels, each between 1 and 3). -/
theorem C3_rfm_score_range (rules : List RfmRule) (hs : List SalesHeader)
    (rows : List RfmRow) (c : String)
    (hrt : rfmTable rules hs = some rows) (hc : ∃ h ∈ hs, h.customer_id = c) :
    ∃ row ∈ rows, row.customer_id = c ∧ 3 ≤ row.rfm_score ∧ row.rfm_score ≤ 9 := by
  unfold rfmTable at hrt
  rcases Option.bind_eq_some.mp hrt with ⟨eR, hR, hrt2⟩
  rcases Option.bind_eq_some.mp hrt2 with ⟨eF, hF, hrt3⟩
  rcases Option.bind_eq_some.mp hrt3 with ⟨eM, hM, hrt4⟩
  have hrows : rows = (rfmCustomers hs).map (rfmRow rules hs eR eF eM) :=
    (Option.some.inj hrt4).symm
  subst hrows
  have hcmem : c ∈ rfmCustomers hs := by
    rcases hc with ⟨h, hh, hcid⟩
    exact (mem_groupKeys _ _).mpr (List.mem_map.mpr ⟨h, hh, hcid⟩)
  have hsc : (rfmRow rules hs eR eF eM c).rfm_score =
      qcutLabel 3 2 1 eR (recencyQ hs c) + qcutLabel 1 2 3 eF (freqRank hs c) +
        qcutLabel 1 2 3 eM (monetaryOf hs c) := rfl
  have h1 := qcutLabel_321_range eR (recencyQ hs c)
  have h2 := qcutLabel_123_range eF (freqRank hs c)
  have h3 := qcutLabel_123_range eM (monetaryOf hs c)
  refine ⟨rfmRow rules hs eR eF eM c, List.mem_map_of_mem _ hcmem, rfl, ?_, ?_⟩
  · rw [hsc]
    omega
  · rw [hsc]
    omega

/-- Evaluation of the groupby keys of the concrete two-transaction
snapshot used by the concrete instantiations below. -/
theorem rfmCustomers_eval :
    rfmCustomers [⟨"T1", "C1", 10, 100⟩, ⟨"T2", "C2", 12, 200⟩] = ["C1", "C2"] := by
  have hns : ¬ (("C2" : String) < "C1") := by
    simp
    decide
  simp only [rfmCustomers, groupKeys, sortStrings, List.map_cons, List.map_nil,
    List.foldr_cons, List.foldr_nil, sortStrInsert, if_neg hns, dedupStr,
    List.contains, List.elem_cons, List.elem_nil]
  simp

section
set_option maxHeartbeats 1000000

/-- Evaluation of the RFM stage on a concrete two-transaction snapshot,
shared by the concrete instantiations below. -/
theorem rfmTable_two_customer_eval :
    rfmTable [] [⟨"T1", "C1", 10, 100⟩, ⟨"T2", "C2", 12, 200⟩] = some
      [⟨"C1", 3, 1, 100, 1, 1, 1, 3, "Unclassified"⟩,
        ⟨"C2", 1, 1, 200, 3, 3, 3, 9, "Unclassified"⟩] := by
  have hct1 : custTxns [⟨"T1", "C1", 10, 100⟩, ⟨"T2", "C2", 12, 200⟩] "C1" =
      [⟨"T1", "C1", 10, 100⟩] := by
    simp [custTxns, List.filter_cons, List.filter_nil]
  have hct2 : custTxns [⟨"T1", "C1", 10, 100⟩, ⟨"T2", "C2", 12, 200⟩] "C2" =
      [⟨"T2", "C2", 12, 200⟩] := by
    simp [custTxns, List.filter_cons, List.filter_nil]
  have hrec1 : recencyOf [⟨"T1", "C1", 10, 100⟩, ⟨"T2", "C2", 12, 200⟩] "C1" = 3 := by
    simp only [recencyOf, snapshotDate, hct1, List.map_cons, List.map_nil,
      listMaxInt, List.foldl_cons, List.foldl_nil]
    norm_num
  have hrec2 : recencyOf [⟨"T1", "C1", 10, 100⟩, ⟨"T2", "C2", 12, 200⟩] "C2" = 1 := by
    simp only [recencyOf, snapshotDate, hct2, List.map_cons, List.map_nil,
      listMaxInt, List.foldl_cons, List.foldl_nil]
    norm_num
  have hrq1 : recencyQ [⟨"T1", "C1", 10, 100⟩, ⟨"T2", "C2", 12, 200⟩] "C1" = 3 := by
    simp only [recencyQ, hrec1]
    norm_num
  have hrq2 : recencyQ [⟨"T1", "C1", 10, 100⟩, ⟨"T2", "C2", 12, 200⟩] "C2" = 1 := by
    simp only [recencyQ, hrec2]
    norm_num
  have hfo1 : frequencyOf [⟨"T1", "C1", 10, 100⟩, ⟨"T2", "C2", 12, 200⟩] "C1" = 1 := by
    simp [frequencyOf, hct1]
  have hfo2 : frequencyOf [⟨"T1", "C1", 10, 100⟩, ⟨"T2", "C2", 12, 200⟩] "C2" = 1 := by
    simp [frequencyOf, hct2]
  have hf1 : frequencyQ [⟨"T1", "C1", 10, 100⟩, ⟨"T2", "C2", 12, 200⟩] "C1" = 1 := by
    simp [frequencyQ, hfo1]
  have hf2 : frequencyQ [⟨"T1", "C1", 10, 100⟩, ⟨"T2", "C2", 12, 200⟩] "C2" = 1 := by
    simp [frequencyQ, hfo2]
  have hm1 : monetaryOf [⟨"T1", "C1", 10, 100⟩, ⟨"T2", "C2", 12, 200⟩] "C1" = 100 := by
    simp [monetaryOf, hct1]
  have hm2 : monetaryOf [⟨"T1", "C1", 10, 100⟩, ⟨"T2", "C2", 12, 200⟩] "C2" = 200 := by
    simp [monetaryOf, hct2]
  have hrank1 : rankFirst ["C1", "C2"]
      (frequencyQ [⟨"T1", "C1", 10, 100⟩, ⟨"T2", "C2", 12, 200⟩]) "C1" = 1 := by
    simp [rankFirst, hf1, hf2, List.filter_cons, List.filter_nil,
      List.takeWhile_cons, List.takeWhile_nil]
  have hrank2 : rankFirst ["C1", "C2"]
      (frequencyQ [⟨"T1", "C1", 10, 100⟩, ⟨"T2", "C2", 12, 200⟩]) "C2" = 2 := by
    simp [rankFirst, hf1, hf2, List.filter_cons, List.filter_nil,
      List.takeWhile_cons, List.takeWhile_nil]
    norm_num [List.filter_cons, List.filter_nil]
  have hfrk1 : freqRank [⟨"T1", "C1", 10, 100⟩, ⟨"T2", "C2", 12, 200⟩] "C1" = 1 := by
    rw [freqRank, rfmCustomers_eval, hrank1]
  have hfrk2 : freqRank [⟨"T1", "C1", 10, 100⟩, ⟨"T2", "C2", 12, 200⟩] "C2" = 2 := by
    rw [freqRank, rfmCustomers_eval, hrank2]
  have heR : tertileEdges [(3 : ℚ), 1] = some (5/3, 7/3) := by
    norm_num [tertileEdges, sortRats, sortRatInsert, interpQuantile,
      List.foldr_cons, List.foldr_nil]
  have heF : tertileEdges [(1 : ℚ), 2] = some (4/3, 5/3) := by
    norm_num [tertileEdges, sortRats, sortRatInsert, interpQuantile,
      List.foldr_cons, List.foldr_nil]
  have heM : tertileEdges [(100 : ℚ), 200] = some (400/3, 500/3) := by
    norm_num [tertileEdges, sortRats, sortRatInsert, interpQuantile,
      List.foldr_cons, List.foldr_nil]
  have hR : rEdges [⟨"T1", "C1", 10, 100⟩, ⟨"T2", "C2", 12, 200⟩] = some (5/3, 7/3) := by
    rw [rEdges, rfmCustomers_eval, List.map_cons, List.map_cons, List.map_nil,
      hrq1, hrq2, heR]
  have hF : fEdges [⟨"T1", "C1", 10, 100⟩, ⟨"T2", "C2", 12, 200⟩] = some (4/3, 5/3) := by
    rw [fEdges, rfmCustomers_eval, List.map_cons, List.map_cons, List.map_nil,
      hfrk1, hfrk2, heF]
  have hM : mEdges [⟨"T1", "C1", 10, 100⟩, ⟨"T2", "C2", 12, 200⟩] =
      some (400/3, 500/3) := by
    rw [mEdges, rfmCustomers_eval, List.map_cons, List.map_cons, List.map_nil,
      hm1, hm2, heM]
  rw [rfmTable, hR, hF, hM]
  simp only [Option.bind_some, rfmCustomers_eval, List.map_cons, List.map_nil]
  simp only [rfmRow]
  simp only [hrq1, hrq2, hfrk1, hfrk2, hm1, hm2, hrec1, hrec2, hfo1, hfo2]
  norm_num [qcutLabel, segment_customer, List.find?_nil]

end

/-- Witness for C3: on a two-transaction snapshot the RFM stage produces
two rows, and the row of customer C1 has a score inside [3,9]. -/
theorem C3_rfm_score_range_witness :
    ∃ row ∈ [(⟨"C1", 3, 1, 100, 1, 1, 1, 3, "Unclassified"⟩ : RfmRow),
        ⟨"C2", 1, 1, 200, 3, 3, 3, 9, "Unclassified"⟩],
      row.customer_id = "C1" ∧ 3 ≤ row.rfm_score ∧ row.rfm_score ≤ 9 :=
  C3_rfm_score_range [] [⟨"T1", "C1", 10, 100⟩, ⟨"T2", "C2", 12, 200⟩]
    [⟨"C1", 3, 1, 100, 1, 1, 1, 3, "Unclassified"⟩,
      ⟨"C2", 1, 1, 200, 3, 3, 3, 9, "Unclassified"⟩] "C1"
    rfmTable_two_customer_eval
    ⟨⟨"T1", "C1", 10, 100⟩, List.mem_cons_self _ _, rfl⟩

/-- Claim C5 (code behaviour at the failing input): with a single
customer the recency series has a single value, the three tertile bin
edges coincide, and qcut raises ValueError, so the RFM stage crashes
instead of reporting the degenerate population and applying a fallback. -/
theorem C5_degenerate_binning_crashes :
    rfmTable [] [⟨"T1", "C1", 10, 100⟩] = none := by
  norm_num [rfmTable, rEdges, tertileEdges, sortRats, sortRatInsert,
    interpQuantile, rfmCustomers, groupKeys, sortStrings, sortStrInsert,
    dedupStr, recencyQ, recencyOf, snapshotDate, listMaxInt, custTxns,
    List.filter, List.map, List.foldr, List.foldl, List.contains, List.elem,
    Option.bind]

/-- Claim C4 (code behaviour at the failing inputs): an active rule with
min_spend_threshold 0 makes the engine raise the pandas cast error in
the middle of the rule loop rather than surfacing a configuration error
before computation, and an active rule with a negative threshold is
silently evaluated, here awarding -9 points. -/
theorem C4_zero_threshold_not_validated :
    loyaltyEngine [⟨0, 5, 10, PyVal.str ("TRUE")⟩] [⟨"T1", "C1", 0, 250⟩] =
        Except.error nonFiniteCastMsg ∧
      loyaltyEngine [⟨-50, 2, 1, PyVal.str ("TRUE")⟩] [⟨"T1", "C1", 0, 250⟩] =
        Except.ok [⟨⟨"T1", "C1", 0, 250⟩, -9⟩] := by
  constructor
  · norm_num [loyaltyEngine, applyRules, applyLoyaltyRule, astypeInt,
      is_active_true, List.filter, List.any, List.map]
  · have hceil : ⌈(-5 : ℚ)⌉ = -5 := by
      rw [show ((-5 : ℚ)) = ((-5 : ℤ) : ℚ) by norm_num, Int.ceil_intCast]
    norm_num [loyaltyEngine, applyRules, applyLoyaltyRule, astypeInt,
      is_active_true, List.filter, List.any, List.map, hceil]

/-- Evaluation of the merged customer-segment output on a concrete
snapshot with a transactionless customer C3, shared by the concrete
instantiations below. -/
theorem customerLoyaltySegments_three_customer_eval :
    customerLoyaltySegments [] [⟨"C1", 0⟩, ⟨"C2", 0⟩, ⟨"C3", 0⟩]
        [⟨"T1", "C1", 10, 100⟩, ⟨"T2", "C2", 12, 200⟩] = some
      [⟨"C1", some ("Unclassified")⟩, ⟨"C2", some ("Unclassified")⟩,
        ⟨"C3", none⟩] := by
  rw [customerLoyaltySegments, rfmTable_two_customer_eval]
  simp [List.map_cons, List.map_nil, List.find?_cons, List.find?_nil]

/-- Claim C6 as stated is false: in the merged customer-segment output a
customer with no transaction in the snapshot (here C3) carries a null
segment, because the left merge finds no rfm row for them. -/
theorem C6_counterexample_null_segment :
    ¬ ∀ (rules : List RfmRule) (customers : List Customer)
        (hs : List SalesHeader) (out : List CustomerSegmentRow),
        customerLoyaltySegments rules customers hs = some out →
        ∀ row ∈ out, row.segment ≠ none := by
  intro hclaim
  exact hclaim _ _ _ _ customerLoyaltySegments_three_customer_eval
    ⟨"C3", none⟩ (by simp) rfl

/-- Claim C6 amended: in the merged customer-segment output every
customer who has at least one transaction in the snapshot carries a
non-null segment (the classifier itself falls back to "Unclassified"
rather than null); only customers with no transactions get a null
segment from the left merge. -/
theorem C6_segment_assigned_for_active_customers (rules : List RfmRule)
    (customers : List Customer) (hs : List SalesHeader)
    (out : List CustomerSegmentRow)
    (hout : customerLoyaltySegments rules customers hs = some out) :
    ∀ row ∈ out, (∃ h ∈ hs, h.customer_id = row.customer_id) →
      ∃ s, row.segment = some s := by
  unfold customerLoyaltySegments at hout
  rcases Option.map_eq_some'.mp hout with ⟨rfm, hrfm, hmap⟩
  subst hmap
  intro row hrow htxn
  rcases List.mem_map.mp hrow with ⟨c, _, hcrow⟩
  subst hcrow
  unfold rfmTable at hrfm
  rcases Option.bind_eq_some.mp hrfm with ⟨eR, hR, hb2⟩
  rcases Option.bind_eq_some.mp hb2 with ⟨eF, hF, hb3⟩
  rcases Option.bind_eq_some.mp hb3 with ⟨eM, hM, hb4⟩
  have hrfm2 : rfm = (rfmCustomers hs).map (rfmRow rules hs eR eF eM) :=
    (Option.some.inj hb4).symm
  subst hrfm2
  have hcmem : c.customer_id ∈ rfmCustomers hs := by
    rcases htxn with ⟨h, hh, hcid⟩
    exact (mem_groupKeys _ _).mpr (List.mem_map.mpr ⟨h, hh, hcid⟩)
  show ∃ s, (((rfmCustomers hs).map (rfmRow rules hs eR eF eM)).find?
      (fun r => r.customer_id == c.customer_id)).map
        (fun r => r.segment) = some s
  rw [find_map_key_of_mem (rfmRow rules hs eR eF eM) RfmRow.customer_id
    (fun d => rfl) _ _ hcmem]
  exact ⟨_, rfl⟩

/-- Witness for the amended C6: on the two-transaction snapshot the
merged row of customer C1, who has a transaction, carries a non-null
segment. -/
theorem C6_segment_assigned_witness :
    ∃ s, (⟨"C1", some ("Unclassified")⟩ : CustomerSegmentRow).segment = some s :=
  C6_segment_assigned_for_active_customers [] [⟨"C1", 0⟩, ⟨"C2", 0⟩, ⟨"C3", 0⟩]
    [⟨"T1", "C1", 10, 100⟩, ⟨"T2", "C2", 12, 200⟩]
    [⟨"C1", some ("Unclassified")⟩, ⟨"C2", some ("Unclassified")⟩,
      ⟨"C3", none⟩]
    customerLoyaltySegments_three_customer_eval
    ⟨"C1", some ("Unclassified")⟩ (by simp)
    ⟨⟨"T1", "C1", 10, 100⟩, List.mem_cons_self _ _, rfl⟩

end LoyaltyLens
